import Mathlib

/-!
Formal model of the conversion engine of ImgZap (src/convert.rs and the
`ImageFormatExt` type in src/main.rs), as a shallow embedding in Lean.

File system access, image decoding and image encoding are effects of external
libraries; they are modelled by explicit oracles (function parameters giving
the result of each fallible external call), while every piece of logic that
lives in convert.rs / main.rs — format tables, the dispatcher's filtering and
iteration, frame assembly, branch structure around `expect`, the order of file
creation relative to fallible steps — is translated directly from the source.
-/

set_option autoImplicit false

namespace ImgZap

/-- Image formats supported by the application (`ImageFormatExt` in main.rs). -/
inductive ImageFormatExt where
  | Png
  | Jpeg
  | WebP
  | Tiff
  | Bmp
  | Ico
  | Avif
  | Svg
  deriving DecidableEq, Repr

/-- Formats of the `image` crate that the generic raster encoder can target
(the values returned by `ImageFormatExt::get_format` in main.rs). -/
inductive ImageFormat where
  | Png
  | Jpeg
  | WebP
  | Tiff
  | Bmp
  | Avif
  deriving DecidableEq, Repr

/-- Translation of `ImageFormatExt::get_format` (main.rs): the image-crate
format used for generic raster encoding; `none` for Ico and Svg. -/
def ImageFormatExt.get_format : ImageFormatExt → Option ImageFormat
  | .Png => some .Png
  | .Jpeg => some .Jpeg
  | .WebP => some .WebP
  | .Tiff => some .Tiff
  | .Bmp => some .Bmp
  | .Avif => some .Avif
  | .Ico => none
  | .Svg => none

/-- Translation of `ImageFormatExt::get_name` (main.rs). -/
def ImageFormatExt.get_name : ImageFormatExt → String
  | .Png => "PNG"
  | .Jpeg => "JPEG"
  | .WebP => "WEBP"
  | .Tiff => "TIFF"
  | .Bmp => "BMP"
  | .Ico => "ICO"
  | .Avif => "AVIF"
  | .Svg => "SVG"

/-- Translation of `ImageFormatExt::get_ext` (main.rs): the lowercase name,
used as the output file extension. -/
def ImageFormatExt.get_ext (f : ImageFormatExt) : String :=
  f.get_name.toLower

/-- A file path, modelled as its list of components. -/
abbrev FilePath := List String

/-- A conversion job as the dispatcher creates it: one selected source file
paired with one enabled target format different from the source format. -/
structure Job where
  path : FilePath
  source : ImageFormatExt
  target : ImageFormatExt
  deriving DecidableEq, Repr

/-- Observable outcome of one job in the dispatcher loop of
`image_to_other` (convert.rs): a written output file, or the log line printed
by `inspect_err` (which shows the target format, the source path and the
error detail). -/
inductive Event where
  | wrote (path : FilePath) (target : ImageFormatExt)
  | logged (path : FilePath) (target : ImageFormatExt) (err : String)
  deriving DecidableEq, Repr

/-- Translation of `convert::image_to_other` (convert.rs, lines 15-52).

`images` is the `HashMap<PathBuf, (ImageFormatExt, bool)>` of selected files
(as an association list), `targets` the `HashMap<ImageFormatExt, bool>` of
target-format toggles.  The per-job codec call (`svg_to_other`,
`ico_to_other` or `other_to_other`, including all of its file IO) is
abstracted by the oracle `exec`, which returns the codec result for a given
source path, source format and target format.  The function returns the list
of observable events: an `Event.wrote` for each job whose codec call
succeeded, an `Event.logged` for each job whose codec call failed. -/
def image_to_other (exec : FilePath → ImageFormatExt → ImageFormatExt → Except String Unit)
    (images : List (FilePath × ImageFormatExt × Bool))
    (targets : List (ImageFormatExt × Bool)) : List Event :=
  (images.filterMap (fun x => if x.2.2 = true then some (x.1, x.2.1) else none)).flatMap
    (fun pf =>
      (targets.filterMap (fun t => if t.2 = true ∧ pf.2 ≠ t.1 then some t.1 else none)).map
        (fun cf =>
          match exec pf.1 pf.2 cf with
          | .ok _ => .wrote pf.1 cf
          | .error e => .logged pf.1 cf e))

/-- The list of conversion jobs the dispatcher creates: the same double
iteration and filtering as `image_to_other`, materialized as job values. -/
def dispatchJobs (images : List (FilePath × ImageFormatExt × Bool))
    (targets : List (ImageFormatExt × Bool)) : List Job :=
  (images.filterMap (fun x => if x.2.2 = true then some (x.1, x.2.1) else none)).flatMap
    (fun pf =>
      (targets.filterMap (fun t => if t.2 = true ∧ pf.2 ≠ t.1 then some t.1 else none)).map
        (fun cf => ⟨pf.1, pf.2, cf⟩))

theorem mem_dispatchJobs {images : List (FilePath × ImageFormatExt × Bool)}
    {targets : List (ImageFormatExt × Bool)} {j : Job}
    (h : j ∈ dispatchJobs images targets) :
    (j.path, j.source, true) ∈ images ∧ (j.target, true) ∈ targets ∧ j.source ≠ j.target := by
  simp only [dispatchJobs, List.mem_flatMap, List.mem_filterMap, List.mem_map] at h
  obtain ⟨⟨p, f⟩, ⟨⟨p2, f2, c2⟩, hx, hxeq⟩, cf, ⟨⟨tf, tb⟩, ht, hteq⟩, hj⟩ := h
  dsimp only at hxeq hteq
  split at hxeq
  case isTrue hcx =>
    cases hxeq
    split at hteq
    case isTrue hct =>
      cases hteq
      subst hj
      rw [hcx] at hx
      rw [hct.1] at ht
      exact ⟨hx, ht, hct.2⟩
    case isFalse => cases hteq
  case isFalse => cases hxeq

theorem mem_image_to_other
    {exec : FilePath → ImageFormatExt → ImageFormatExt → Except String Unit}
    {images : List (FilePath × ImageFormatExt × Bool)}
    {targets : List (ImageFormatExt × Bool)} {ev : Event}
    (h : ev ∈ image_to_other exec images targets) :
    ∃ p f cf, (p, f, true) ∈ images ∧ (cf, true) ∈ targets ∧ f ≠ cf ∧
      ((exec p f cf = .ok () ∧ ev = .wrote p cf) ∨
       (∃ e, exec p f cf = .error e ∧ ev = .logged p cf e)) := by
  simp only [image_to_other, List.mem_flatMap, List.mem_filterMap, List.mem_map] at h
  obtain ⟨⟨p, f⟩, ⟨⟨p2, f2, c2⟩, hx, hxeq⟩, cf, ⟨⟨tf, tb⟩, ht, hteq⟩, hj⟩ := h
  dsimp only at hxeq hteq
  split at hxeq
  case isTrue hcx =>
    simp only [Option.some.injEq, Prod.mk.injEq] at hxeq
    obtain ⟨hp, hf⟩ := hxeq
    rw [hp, hf, hcx] at hx
    split at hteq
    case isTrue hct =>
      simp only [Option.some.injEq] at hteq
      rw [hteq, hct.1] at ht
      refine ⟨p, f, cf, hx, ht, hteq ▸ hct.2, ?_⟩
      cases hE : exec p f cf with
      | ok u => rw [hE] at hj; exact Or.inl ⟨by cases u; rfl, hj.symm⟩
      | error e => rw [hE] at hj; exact Or.inr ⟨e, rfl, hj.symm⟩
    case isFalse => cases hteq
  case isFalse => cases hxeq

theorem image_to_other_mem
    {exec : FilePath → ImageFormatExt → ImageFormatExt → Except String Unit}
    {images : List (FilePath × ImageFormatExt × Bool)}
    {targets : List (ImageFormatExt × Bool)} {p : FilePath} {f cf : ImageFormatExt}
    (hx : (p, f, true) ∈ images) (ht : (cf, true) ∈ targets) (hne : f ≠ cf) :
    (match exec p f cf with
      | .ok _ => Event.wrote p cf
      | .error e => Event.logged p cf e) ∈ image_to_other exec images targets := by
  simp only [image_to_other, List.mem_flatMap, List.mem_filterMap, List.mem_map]
  refine ⟨(p, f), ⟨(p, f, true), hx, by simp⟩, cf, ⟨(cf, true), ht, by simp [hne]⟩, rfl⟩

/-- C1: for every selected source file and every enabled target format, if the
target format equals the file's detected source format, the dispatcher creates
no conversion job for that pair: no output file is written for it and no error
is logged for it.  The hypothesis states that `f` is the format detected for
`p` (the images map, a `HashMap` keyed by path, associates a single format to
each path). -/
theorem same_format_skip
    (exec : FilePath → ImageFormatExt → ImageFormatExt → Except String Unit)
    (images : List (FilePath × ImageFormatExt × Bool))
    (targets : List (ImageFormatExt × Bool)) (p : FilePath) (f : ImageFormatExt) (err : String)
    (hf : ∀ f2 c2, (p, f2, c2) ∈ images → f2 = f) :
    Event.wrote p f ∉ image_to_other exec images targets ∧
    Event.logged p f err ∉ image_to_other exec images targets := by
  constructor <;> intro hmem <;>
    obtain ⟨p2, f2, cf, hx, _, hne, hcase⟩ := mem_image_to_other hmem
  · rcases hcase with ⟨_, hev⟩ | ⟨e, _, hev⟩
    · cases hev
      exact hne (hf f2 true hx)
    · cases hev
  · rcases hcase with ⟨_, hev⟩ | ⟨e, _, hev⟩
    · cases hev
    · cases hev
      exact hne (hf f2 true hx)

/-- C1 witness: with `logo.png` selected as a PNG source and PNG the only
enabled target, no output is written and nothing is logged for that pair. -/
theorem same_format_skip_witness :
    Event.wrote [".", "logo.png"] .Png ∉
      image_to_other (fun _ _ _ => .ok ())
        [([".", "logo.png"], ImageFormatExt.Png, true)] [(ImageFormatExt.Png, true)] ∧
    Event.logged [".", "logo.png"] .Png "err" ∉
      image_to_other (fun _ _ _ => .ok ())
        [([".", "logo.png"], ImageFormatExt.Png, true)] [(ImageFormatExt.Png, true)] :=
  same_format_skip _ _ _ _ _ "err" (by
    intro f2 c2 h
    simp only [List.mem_singleton, Prod.mk.injEq] at h
    exact h.2.1)

/-- C2: batch isolation.  For every selected file and enabled distinct target
format, the outcome of that pair is present in the dispatcher's event list no
matter what every codec call (including every other, possibly failing, job)
returns: a failing codec call is logged together with the source path, the
target format and the error detail, and a succeeding one writes its output.
In particular no single job failure aborts the batch. -/
theorem batch_isolation
    (exec : FilePath → ImageFormatExt → ImageFormatExt → Except String Unit)
    (images : List (FilePath × ImageFormatExt × Bool))
    (targets : List (ImageFormatExt × Bool)) (p : FilePath) (f cf : ImageFormatExt)
    (hx : (p, f, true) ∈ images) (ht : (cf, true) ∈ targets) (hne : f ≠ cf) :
    (∀ e, exec p f cf = .error e →
      Event.logged p cf e ∈ image_to_other exec images targets) ∧
    (exec p f cf = .ok () →
      Event.wrote p cf ∈ image_to_other exec images targets) := by
  constructor
  · intro e he
    have h := @image_to_other_mem exec images targets p f cf hx ht hne
    rw [he] at h
    exact h
  · intro he
    have h := @image_to_other_mem exec images targets p f cf hx ht hne
    rw [he] at h
    exact h

/-- C2 witness: a batch of two selected files in which the codec call for
`bad.bmp` always fails still writes the PNG output for `good.bmp`, and the
failure is logged with the source path, the target format and the error. -/
theorem batch_isolation_witness :
    Event.logged ["bad.bmp"] .Png "decode failure" ∈
      image_to_other
        (fun p _ _ => if p = ["bad.bmp"] then .error "decode failure" else .ok ())
        [(["bad.bmp"], ImageFormatExt.Bmp, true), (["good.bmp"], ImageFormatExt.Bmp, true)]
        [(ImageFormatExt.Png, true)] ∧
    Event.wrote ["good.bmp"] .Png ∈
      image_to_other
        (fun p _ _ => if p = ["bad.bmp"] then .error "decode failure" else .ok ())
        [(["bad.bmp"], ImageFormatExt.Bmp, true), (["good.bmp"], ImageFormatExt.Bmp, true)]
        [(ImageFormatExt.Png, true)] :=
  ⟨(batch_isolation _ _ _ _ .Bmp .Png (by simp) (by simp) (by decide)).1
      "decode failure" (by simp),
   (batch_isolation _ _ _ _ .Bmp .Png (by simp) (by simp) (by decide)).2 (by simp)⟩

/-- One directory entry of an icon container, with the dimensions reported by
the icon directory (`ico::IconDirEntry`). -/
structure IcoEntry where
  width : Nat
  height : Nat
  deriving DecidableEq, Repr

/-- One step of Rust's `Iterator::max_by_key` fold: keep the current maximum,
replacing it whenever the new key is greater or equal (so that, among equally
maximal elements, the last one wins). -/
def maxStep {α : Type} (key : α → Nat) (acc : Option α) (x : α) : Option α :=
  match acc with
  | none => some x
  | some m => if key m ≤ key x then some x else some m

/-- Rust's `Iterator::max_by_key`: the element with the maximal key, the last
one in case of ties, `none` on an empty iterator. -/
def rustMaxByKey {α : Type} (key : α → Nat) (l : List α) : Option α :=
  l.foldl (maxStep key) none

@[simp]
theorem maxStep_none {α : Type} (key : α → Nat) (x : α) : maxStep key none x = some x := rfl

@[simp]
theorem maxStep_some {α : Type} (key : α → Nat) (m x : α) :
    maxStep key (some m) x = if key m ≤ key x then some x else some m := rfl

theorem maxFold_some {α : Type} (key : α → Nat) :
    ∀ (l : List α) (m : α), ∃ r, l.foldl (maxStep key) (some m) = some r ∧
      (r = m ∨ r ∈ l) ∧ key m ≤ key r ∧ ∀ x ∈ l, key x ≤ key r
  | [], m => ⟨m, rfl, Or.inl rfl, le_refl _, by simp⟩
  | a :: l, m => by
    obtain ⟨r, hfold, hmem, hkey, hall⟩ :=
      maxFold_some key l (if key m ≤ key a then a else m)
    refine ⟨r, ?_, ?_, ?_, ?_⟩
    · rw [List.foldl_cons, maxStep_some]
      rw [apply_ite some] at hfold
      exact hfold
    · rcases hmem with h | h
      · by_cases hle : key m ≤ key a
        · rw [if_pos hle] at h
          exact Or.inr (h ▸ List.mem_cons_self a l)
        · rw [if_neg hle] at h
          exact Or.inl h
      · exact Or.inr (List.mem_cons_of_mem a h)
    · by_cases hle : key m ≤ key a
      · rw [if_pos hle] at hkey
        exact le_trans hle hkey
      · rw [if_neg hle] at hkey
        exact hkey
    · intro x hx
      rcases List.mem_cons.mp hx with h | h
      · subst h
        by_cases hle : key m ≤ key x
        · rw [if_pos hle] at hkey
          exact hkey
        · rw [if_neg hle] at hkey
          exact le_trans (le_of_not_le hle) hkey
      · exact hall x h

theorem rustMaxByKey_spec {α : Type} (key : α → Nat) (l : List α) (hne : l ≠ []) :
    ∃ r, rustMaxByKey key l = some r ∧ r ∈ l ∧ ∀ x ∈ l, key x ≤ key r := by
  cases l with
  | nil => exact absurd rfl hne
  | cons a l =>
    obtain ⟨r, hfold, hmem, _, hall⟩ := maxFold_some key l a
    refine ⟨r, ?_, ?_, ?_⟩
    · rw [rustMaxByKey, List.foldl_cons, maxStep_none]
      exact hfold
    · rcases hmem with h | h
      · exact h ▸ List.mem_cons_self a l
      · exact List.mem_cons_of_mem a h
    · intro x hx
      rcases List.mem_cons.mp hx with h | h
      · subst h
        obtain ⟨r2, hfold2, _, hkey2, _⟩ := maxFold_some key l x
        rw [hfold2] at hfold
        cases hfold
        exact hkey2
      · exact hall x h

@[simp]
theorem rustMaxByKey_nil {α : Type} (key : α → Nat) : rustMaxByKey key [] = none := rfl

/-- Translation of the entry-selection step of `ico_to_other` (convert.rs,
lines 60-67): `icon_dir.entries().into_iter().max_by_key(|entry|
entry.width() * entry.height())`, with `ok_or` turning an empty directory
into the error `No images found in ICO file`. -/
def selectLargestEntry (entries : List IcoEntry) : Except String IcoEntry :=
  match rustMaxByKey (fun e => e.width * e.height) entries with
  | some e => .ok e
  | none => .error "No images found in ICO file"

/-- C4: icon-container decode fails with an error when the icon directory has
no entries; otherwise it succeeds and selects an entry of the directory that
maximizes `width * height` among all entries. -/
theorem ico_decode_selects_max (entries : List IcoEntry) :
    (entries = [] → selectLargestEntry entries = .error "No images found in ICO file") ∧
    (entries ≠ [] → ∃ e, selectLargestEntry entries = .ok e) ∧
    (∀ e, selectLargestEntry entries = .ok e →
      e ∈ entries ∧ ∀ x ∈ entries, x.width * x.height ≤ e.width * e.height) := by
  refine ⟨?_, ?_, ?_⟩
  · intro h
    subst h
    rfl
  · intro hne
    obtain ⟨r, hsel, _, _⟩ := rustMaxByKey_spec (fun e => e.width * e.height) entries hne
    exact ⟨r, by rw [selectLargestEntry, hsel]⟩
  · intro e he
    by_cases hemp : entries = []
    · subst hemp
      cases he
    · obtain ⟨r, hsel, hmem, hall⟩ :=
        rustMaxByKey_spec (fun e => e.width * e.height) entries hemp
      rw [selectLargestEntry, hsel] at he
      cases he
      exact ⟨hmem, hall⟩

/-- C4 witness: a container holding 16x16, 32x32 and 64x64 frames decodes to
the 64x64 frame, which indeed has maximal area. -/
theorem ico_decode_selects_max_witness :
    selectLargestEntry [⟨16, 16⟩, ⟨32, 32⟩, ⟨64, 64⟩] = .ok ⟨64, 64⟩ ∧
    (⟨64, 64⟩ : IcoEntry) ∈ [(⟨16, 16⟩ : IcoEntry), ⟨32, 32⟩, ⟨64, 64⟩] ∧
    ∀ x ∈ [(⟨16, 16⟩ : IcoEntry), ⟨32, 32⟩, ⟨64, 64⟩],
      x.width * x.height ≤ 64 * 64 :=
  ⟨rfl, (ico_decode_selects_max [⟨16, 16⟩, ⟨32, 32⟩, ⟨64, 64⟩]).2.2 ⟨64, 64⟩ rfl⟩

/-- Pixel color types of the `image` crate (the variants relevant to the
program: `DynamicImage::color()` values). -/
inductive ColorType where
  | L8
  | La8
  | Rgb8
  | Rgba8
  | L16
  | La16
  | Rgb16
  | Rgba16
  | Rgb32F
  | Rgba32F
  deriving DecidableEq, Repr

/-- Number of channels of a color type (`ColorType::channel_count`). -/
def ColorType.channel_count : ColorType → Nat
  | .L8 => 1
  | .La8 => 2
  | .Rgb8 => 3
  | .Rgba8 => 4
  | .L16 => 1
  | .La16 => 2
  | .Rgb16 => 3
  | .Rgba16 => 4
  | .Rgb32F => 3
  | .Rgba32F => 4

/-- Whether a color type carries an alpha channel (`ColorType::has_alpha`). -/
def ColorType.has_alpha : ColorType → Bool
  | .La8 => true
  | .Rgba8 => true
  | .La16 => true
  | .Rgba16 => true
  | .Rgba32F => true
  | _ => false

/-- An in-memory bitmap (`DynamicImage` / `RgbaImage` / `RgbImage`): explicit
dimensions, color type, and flat channel data. -/
structure Image where
  width : Nat
  height : Nat
  color : ColorType
  data : List Nat
  deriving DecidableEq, Repr

/-- Translation of `DynamicImage::to_rgb8`: a total conversion to a 3-channel
RGB8 image of the same dimensions.  The per-pixel channel conversion (which
drops the alpha channel) is the oracle `rgbData`; `to_rgb8` never fails,
whatever the source color type. -/
def to_rgb8 (rgbData : Image → List Nat) (img : Image) : Image :=
  ⟨img.width, img.height, .Rgb8, rgbData img⟩

/-- Translation of `DynamicImage::to_rgba8`: a total conversion to a
4-channel RGBA8 image of the same dimensions, with oracle `rgbaData` for the
pixel data. -/
def to_rgba8 (rgbaData : Image → List Nat) (img : Image) : Image :=
  ⟨img.width, img.height, .Rgba8, rgbaData img⟩

/-- The encode action a codec path ends in: a direct raster save
(`save_with_format` / `write_to`), delegation to the icon encoder with a size
ladder, delegation to the vtracer vectorizer, or nothing. -/
inductive SaveAction where
  | saved (img : Image) (fmt : ImageFormat)
  | icoEncode (img : Image) (sizes : List Nat)
  | svgTrace
  | noop
  deriving DecidableEq, Repr

/-- Translation of the encode dispatch of `other_to_other` (convert.rs,
lines 200-216), applied to the successfully decoded source `image`. -/
def other_to_other_encode (rgbData : Image → List Nat) (image : Image)
    (convert_format : ImageFormatExt) : SaveAction :=
  match convert_format.get_format with
  | some format =>
      if format = .Jpeg then .saved (to_rgb8 rgbData image) format
      else .saved image format
  | none =>
      if convert_format = .Ico then .icoEncode image [16, 32, 48, 64, 128, 256]
      else if convert_format = .Svg then .svgTrace
      else .noop

/-- Translation of the encode dispatch of `ico_to_other` (convert.rs,
lines 71-120), applied to the RGBA bitmap `rgba` decoded from the selected
icon entry.  The `expect("No supported image formats")` in the JPEG branch is
modelled by the inner match: a `none` result of the whole function models a
panic. -/
def ico_to_other_encode (rgbData : Image → List Nat) (rgba : Image)
    (convert_format : ImageFormatExt) : Option SaveAction :=
  match convert_format.get_format with
  | some f =>
      if f = .Jpeg then
        match convert_format.get_format with
        | some f2 => some (.saved (to_rgb8 rgbData rgba) f2)
        | none => none
      else some (.saved rgba f)
  | none => some .svgTrace

/-- Translation of the encode dispatch of `svg_to_other` (convert.rs,
lines 171-190), applied to the rasterized RGBA canvas `image`.  The two
`expect("No supported image formats")` calls are modelled by the inner
matches: a `none` result models a panic. -/
def svg_to_other_encode (rgbData : Image → List Nat) (image : Image)
    (convert_format : ImageFormatExt) : Option SaveAction :=
  match convert_format with
  | .Ico => some (.icoEncode image [16, 32, 48, 64, 128, 256])
  | .Jpeg =>
      match ImageFormatExt.get_format .Jpeg with
      | some f => some (.saved (to_rgb8 rgbData image) f)
      | none => none
  | f =>
      match f.get_format with
      | some gf => some (.saved image gf)
      | none => none

/-- C5: on each of the three codec paths (generic raster, icon decode, vector
rasterize), encoding to a JPEG destination first converts the image with
`to_rgb8`, so the saved image is a 3-channel image without alpha, and the
conversion step is total — it cannot fail because the source has an alpha
channel (on the icon path the encode action is always produced, never the
panic marker). -/
theorem jpeg_destination_flattens_alpha (rgbData : Image → List Nat) (image : Image) :
    other_to_other_encode rgbData image .Jpeg = .saved (to_rgb8 rgbData image) .Jpeg ∧
    ico_to_other_encode rgbData image .Jpeg = some (.saved (to_rgb8 rgbData image) .Jpeg) ∧
    svg_to_other_encode rgbData image .Jpeg = some (.saved (to_rgb8 rgbData image) .Jpeg) ∧
    (to_rgb8 rgbData image).color = .Rgb8 ∧
    (to_rgb8 rgbData image).color.channel_count = 3 ∧
    (to_rgb8 rgbData image).color.has_alpha = false :=
  ⟨rfl, rfl, rfl, rfl, rfl, rfl⟩

/-- C10: for every conversion job the dispatcher actually creates (selected
source, enabled target, target format different from the detected source
format), the `expect("No supported image formats")` branches are unreachable:
a vector source is never paired with a vector target, so the vector-rasterize
path's encode dispatch always yields an action (in its fall-through branch
`get_format` is `some`), and the icon-decode path's encode dispatch always
yields an action, for every image. -/
theorem dispatched_jobs_never_panic (rgbData : Image → List Nat)
    (images : List (FilePath × ImageFormatExt × Bool))
    (targets : List (ImageFormatExt × Bool)) (j : Job)
    (hj : j ∈ dispatchJobs images targets) (image : Image) :
    (j.source = .Svg → (svg_to_other_encode rgbData image j.target).isSome = true) ∧
    (ico_to_other_encode rgbData image j.target).isSome = true := by
  constructor
  · intro hs
    have hne : j.target ≠ .Svg := by
      intro h
      exact (mem_dispatchJobs hj).2.2 (hs.trans h.symm)
    cases ht : j.target
    case Svg => exact absurd ht hne
    all_goals rfl
  · cases ht : j.target
    all_goals rfl

/-- C10 witness: the dispatcher run on a selected SVG source with PNG enabled
creates the job SVG→PNG, and both encode dispatches yield an action on it. -/
theorem dispatched_jobs_never_panic_witness :
    (svg_to_other_encode (fun img => img.data)
      ⟨1, 1, .Rgba8, [0, 0, 0, 0]⟩
      (Job.mk ["v.svg"] .Svg .Png).target).isSome = true :=
  (dispatched_jobs_never_panic (fun img => img.data)
    [(["v.svg"], ImageFormatExt.Svg, true)] [(ImageFormatExt.Png, true)]
    ⟨["v.svg"], .Svg, .Png⟩
    (by simp [dispatchJobs]) ⟨1, 1, .Rgba8, [0, 0, 0, 0]⟩).1 rfl

/-- Resampling filters of `image::imageops::FilterType`. -/
inductive FilterType where
  | Nearest
  | Triangle
  | CatmullRom
  | Gaussian
  | Lanczos3
  deriving DecidableEq, Repr

/-- Translation of `DynamicImage::resize_exact`: the result has exactly the
requested dimensions and the same color type as the source; the resampled
pixel content is the oracle `resizePixels`, which receives the chosen
filter. -/
def resize_exact (resizePixels : Image → Nat → Nat → FilterType → List Nat)
    (img : Image) (w h : Nat) (filter : FilterType) : Image :=
  ⟨w, h, img.color, resizePixels img w h filter⟩

/-- One frame of an icon container as built by `IcoFrame::as_png`: the
PNG-compressed payload together with the declared width, height and color
type. -/
structure IcoFrame where
  data : List Nat
  width : Nat
  height : Nat
  color : ColorType
  deriving DecidableEq, Repr

/-- Translation of `IcoFrame::as_png(buf, w, h, color)`: PNG-compress the
buffer (oracle `encodePng`, which may fail) and record the declared
geometry and color type. -/
def icoFrameAsPng (encodePng : List Nat → Except String (List Nat))
    (buf : List Nat) (w h : Nat) (color : ColorType) : Except String IcoFrame :=
  match encodePng buf with
  | .ok d => .ok ⟨d, w, h, color⟩
  | .error e => .error e

/-- Denotation of rayon's `par_iter().map(f).collect::<Result<Vec<_>>>()` on
a list: an order-preserving gather of the per-element results — the result
list keeps the input index order whatever order the parallel tasks finish
in — failing if any element fails. -/
def mapExcept {α β : Type} (f : α → Except String β) : List α → Except String (List β)
  | [] => .ok []
  | a :: l =>
    match f a with
    | .error e => .error e
    | .ok b =>
      match mapExcept f l with
      | .error e => .error e
      | .ok bs => .ok (b :: bs)

theorem mapExcept_ok {α β : Type} (f : α → Except String β) :
    ∀ (l : List α) (bs : List β), mapExcept f l = .ok bs →
      bs.length = l.length ∧
      ∀ n (hn : n < l.length) (hb : n < bs.length),
        f (l.get ⟨n, hn⟩) = .ok (bs.get ⟨n, hb⟩)
  | [], bs => by
    intro h
    cases h
    exact ⟨rfl, fun n hn => absurd hn (by simp)⟩
  | a :: l, bs => by
    intro h
    unfold mapExcept at h
    cases hfa : f a with
    | error e => rw [hfa] at h; cases h
    | ok b =>
      rw [hfa] at h
      cases hrest : mapExcept f l with
      | error e => rw [hrest] at h; cases h
      | ok bs2 =>
        rw [hrest] at h
        cases h
        obtain ⟨hlen, hget⟩ := mapExcept_ok f l bs2 hrest
        refine ⟨by simp [hlen], ?_⟩
        intro n hn hb
        cases n with
        | zero => exact hfa
        | succ n =>
          exact hget n (Nat.lt_of_succ_lt_succ hn) (Nat.lt_of_succ_lt_succ hb)

/-- Translation of the frame-building step of `other_to_icon` (convert.rs,
lines 229-239): for each requested size, `resize_exact` the source to
`sz × sz` with the `Lanczos3` filter, convert the result `to_rgba8`, and
PNG-encode it as a frame declared `sz × sz` with the source image's color
type (`image.color().into()`).  `mapExcept` is the denotation of the
order-preserving rayon gather `par_iter().map(..).collect::<Result<_>>()`. -/
def other_to_icon_frames (resizePixels : Image → Nat → Nat → FilterType → List Nat)
    (rgbaData : Image → List Nat) (encodePng : List Nat → Except String (List Nat))
    (image : Image) (sizes : List Nat) : Except String (List IcoFrame) :=
  mapExcept (fun sz =>
    icoFrameAsPng encodePng
      (to_rgba8 rgbaData (resize_exact resizePixels image sz sz .Lanczos3)).data
      sz sz image.color) sizes

/-- Translation of `other_to_icon` (convert.rs, lines 228-249) together with
its file-system effect.  The destination file is created (`File::create`,
oracle `createOk`) only after all frames have been encoded; the container
serialization (`IcoEncoder::encode_images`, oracle `serializeOk`) happens
after creation.  The returned boolean records whether the destination file
exists when the function returns; no branch of the source ever removes a
created file. -/
def other_to_icon_run (resizePixels : Image → Nat → Nat → FilterType → List Nat)
    (rgbaData : Image → List Nat) (encodePng : List Nat → Except String (List Nat))
    (image : Image) (sizes : List Nat) (createOk serializeOk : Bool) :
    Except String Unit × Bool :=
  match other_to_icon_frames resizePixels rgbaData encodePng image sizes with
  | .error e => (.error e, false)
  | .ok _ =>
    if createOk then
      if serializeOk then (.ok (), true)
      else (.error "Failed to encode .ico file", true)
    else (.error "Failed to create file", false)

/-- C3: when icon frame encoding succeeds, the produced frame list has one
frame per requested size and the Nth frame is declared with the Nth
requested size — the gather preserves the input size-list order. -/
theorem icon_frames_preserve_order
    (resizePixels : Image → Nat → Nat → FilterType → List Nat)
    (rgbaData : Image → List Nat) (encodePng : List Nat → Except String (List Nat))
    (image : Image) (sizes : List Nat) (frames : List IcoFrame)
    (h : other_to_icon_frames resizePixels rgbaData encodePng image sizes = .ok frames) :
    frames.length = sizes.length ∧
    ∀ n (hn : n < frames.length) (hs : n < sizes.length),
      (frames.get ⟨n, hn⟩).width = sizes.get ⟨n, hs⟩ ∧
      (frames.get ⟨n, hn⟩).height = sizes.get ⟨n, hs⟩ := by
  obtain ⟨hlen, hget⟩ := mapExcept_ok _ sizes frames h
  refine ⟨hlen, ?_⟩
  intro n hn hs
  have hfa := hget n hs hn
  unfold icoFrameAsPng at hfa
  cases hpng : encodePng (to_rgba8 rgbaData
      (resize_exact resizePixels image (sizes.get ⟨n, hs⟩) (sizes.get ⟨n, hs⟩) .Lanczos3)).data with
  | error e => rw [hpng] at hfa; cases hfa
  | ok d =>
    rw [hpng] at hfa
    rw [(Except.ok.inj hfa).symm]
    exact ⟨rfl, rfl⟩

/-- C9: when icon frame encoding succeeds, the Nth frame is exactly the
PNG compression of the source image resampled to `size × size` with the
`Lanczos3` (Lanczos-class) filter and converted to RGBA8, and its declared
color type is the source image's native color type. -/
theorem icon_frames_lanczos_and_color
    (resizePixels : Image → Nat → Nat → FilterType → List Nat)
    (rgbaData : Image → List Nat) (encodePng : List Nat → Except String (List Nat))
    (image : Image) (sizes : List Nat) (frames : List IcoFrame)
    (h : other_to_icon_frames resizePixels rgbaData encodePng image sizes = .ok frames) :
    ∀ n (hn : n < frames.length) (hs : n < sizes.length),
      (frames.get ⟨n, hn⟩).color = image.color ∧
      (resize_exact resizePixels image (sizes.get ⟨n, hs⟩) (sizes.get ⟨n, hs⟩)
          .Lanczos3).width = sizes.get ⟨n, hs⟩ ∧
      (resize_exact resizePixels image (sizes.get ⟨n, hs⟩) (sizes.get ⟨n, hs⟩)
          .Lanczos3).height = sizes.get ⟨n, hs⟩ ∧
      encodePng (to_rgba8 rgbaData (resize_exact resizePixels image
          (sizes.get ⟨n, hs⟩) (sizes.get ⟨n, hs⟩) .Lanczos3)).data =
        .ok (frames.get ⟨n, hn⟩).data := by
  obtain ⟨hlen, hget⟩ := mapExcept_ok _ sizes frames h
  intro n hn hs
  have hfa := hget n hs hn
  unfold icoFrameAsPng at hfa
  cases hpng : encodePng (to_rgba8 rgbaData
      (resize_exact resizePixels image (sizes.get ⟨n, hs⟩) (sizes.get ⟨n, hs⟩) .Lanczos3)).data with
  | error e => rw [hpng] at hfa; cases hfa
  | ok d =>
    rw [hpng] at hfa
    rw [(Except.ok.inj hfa).symm]
    exact ⟨rfl, rfl, rfl, rfl⟩

/-- A concrete resampler oracle for witnesses: an all-zero buffer of the
requested geometry. -/
def cResize : Image → Nat → Nat → FilterType → List Nat :=
  fun _ w h _ => List.replicate (w * h * 4) 0

/-- A concrete rgba-conversion oracle for witnesses: the image's own data. -/
def cRgbaData : Image → List Nat :=
  fun img => img.data

/-- A concrete always-succeeding PNG-compression oracle for witnesses. -/
def cPngOk : List Nat → Except String (List Nat) :=
  fun d => .ok d

/-- A concrete always-failing PNG-compression oracle for witnesses. -/
def cPngFail : List Nat → Except String (List Nat) :=
  fun _ => .error "png failure"

/-- A concrete 4x4 RGBA source image for witnesses. -/
def cImage : Image :=
  ⟨4, 4, .Rgba8, List.replicate 64 0⟩

/-- The frame list produced for `cImage` at sizes `[1, 2]`. -/
def cFrames : List IcoFrame :=
  [⟨List.replicate 4 0, 1, 1, .Rgba8⟩, ⟨List.replicate 16 0, 2, 2, .Rgba8⟩]

/-- C3 witness: encoding sizes `[1, 2]` yields two frames whose declared
sizes are `1` and `2` in that order. -/
theorem icon_frames_preserve_order_witness :
    cFrames.length = 2 ∧
    (cFrames.get ⟨0, by decide⟩).width = 1 ∧
    (cFrames.get ⟨1, by decide⟩).width = 2 := by
  have h := icon_frames_preserve_order cResize cRgbaData cPngOk cImage [1, 2] cFrames rfl
  exact ⟨h.1, (h.2 0 (by decide) (by decide)).1, (h.2 1 (by decide) (by decide)).1⟩

/-- C9 witness: both frames produced for `cImage` at sizes `[1, 2]` carry the
source image's color type. -/
theorem icon_frames_lanczos_and_color_witness :
    (cFrames.get ⟨0, by decide⟩).color = cImage.color ∧
    (cFrames.get ⟨1, by decide⟩).color = cImage.color := by
  have h := icon_frames_lanczos_and_color cResize cRgbaData cPngOk cImage [1, 2] cFrames rfl
  exact ⟨(h 0 (by decide) (by decide)).1, (h 1 (by decide) (by decide)).1⟩

/-- C7 counterexample: a concrete icon-encode job in which every frame
encodes successfully, the destination file is created, and the final
container serialization fails.  The job fails, yet the destination file
still exists when the function returns — the code has no cleanup of a
partially written destination, contradicting the claim that a failed job
leaves no destination file. -/
theorem failed_icon_job_leaves_file :
    (other_to_icon_run cResize cRgbaData cPngOk cImage [1] true false).1 =
      .error "Failed to encode .ico file" ∧
    (other_to_icon_run cResize cRgbaData cPngOk cImage [1] true false).2 = true :=
  ⟨rfl, rfl⟩

/-- C7 amended: a failure during frame resize/compression happens before the
destination file is created and leaves no destination file (so no partial
container is written in that case and retrying is idempotent); but a failure
after the destination file has been created — container serialization — leaves
the partially written destination file behind, since the code never removes a
created file. -/
theorem icon_encode_failure_file_state
    (resizePixels : Image → Nat → Nat → FilterType → List Nat)
    (rgbaData : Image → List Nat) (encodePng : List Nat → Except String (List Nat))
    (image : Image) (sizes : List Nat) :
    (∀ e createOk serializeOk,
      other_to_icon_frames resizePixels rgbaData encodePng image sizes = .error e →
      other_to_icon_run resizePixels rgbaData encodePng image sizes createOk serializeOk =
        (.error e, false)) ∧
    (∀ fs, other_to_icon_frames resizePixels rgbaData encodePng image sizes = .ok fs →
      other_to_icon_run resizePixels rgbaData encodePng image sizes true false =
        (.error "Failed to encode .ico file", true)) := by
  constructor
  · intro e createOk serializeOk he
    unfold other_to_icon_run
    rw [he]
  · intro fs hfs
    unfold other_to_icon_run
    rw [hfs]
    rfl

/-- C7 amended witness: with an always-failing PNG compressor the job fails
with no destination file; with a succeeding compressor but failing container
serialization the job fails with the destination file present. -/
theorem icon_encode_failure_file_state_witness :
    other_to_icon_run cResize cRgbaData cPngFail cImage [1] true true =
      (.error "png failure", false) ∧
    other_to_icon_run cResize cRgbaData cPngOk cImage [1] true false =
      (.error "Failed to encode .ico file", true) :=
  ⟨(icon_encode_failure_file_state cResize cRgbaData cPngFail cImage [1]).1
      "png failure" true true rfl,
   (icon_encode_failure_file_state cResize cRgbaData cPngOk cImage [1]).2
      [⟨List.replicate 4 0, 1, 1, .Rgba8⟩] rfl⟩

/-- A premultiplied RGBA color as stored in a tiny-skia pixmap
(`PremultipliedColorU8`): the color channels are already multiplied by the
alpha channel. -/
structure PremulColor where
  red : Nat
  green : Nat
  blue : Nat
  alpha : Nat
  deriving DecidableEq, Repr

/-- tiny-skia's `PremultipliedColorU8::TRANSPARENT`. -/
def PremulColor.transparent : PremulColor := ⟨0, 0, 0, 0⟩

/-- The four channel bytes of a sampled pixel in the order the buffer-filling
loop of `svg_to_other` writes them (`chunk[0] = red, .., chunk[3] = alpha`):
the premultiplied channel values, copied directly. -/
def PremulColor.toBytes (p : PremulColor) : List Nat :=
  [p.red, p.green, p.blue, p.alpha]

/-- Translation of the buffer-filling loop of `svg_to_other` (convert.rs,
lines 155-169): the flat RGBA8 buffer of the `size × size` output image.
Chunk `i` holds the pixel sampled at `(i % size, i / size)` from the rendered
pixmap (the oracle `surface`, `none` outside the pixmap), defaulting to
`PremultipliedColorU8::TRANSPARENT`.  The rayon `par_chunks_mut` loop writes
each 4-byte chunk independently; this flatMap is its order-preserving
denotation. -/
def fillBuffer (size : Nat) (surface : Nat → Nat → Option PremulColor) : List Nat :=
  (List.range (size * size)).flatMap (fun i =>
    ((surface (i % size) (i / size)).getD PremulColor.transparent).toBytes)

/-- The `i`-th 4-byte pixel chunk of a flat RGBA8 buffer. -/
def pixelChunk (buf : List Nat) (i : Nat) : List Nat :=
  (buf.drop (4 * i)).take 4

theorem flatMap_length_const {α : Type} (f : α → List Nat) (hf : ∀ a, (f a).length = 4) :
    ∀ l : List α, (l.flatMap f).length = 4 * l.length
  | [] => rfl
  | a :: l => by
    rw [List.flatMap_cons, List.length_append, hf a, flatMap_length_const f hf l,
      List.length_cons]
    ring

theorem pixelChunk_flatMap {α : Type} (f : α → List Nat) (hf : ∀ a, (f a).length = 4) :
    ∀ (l : List α) (i : Nat) (h : i < l.length),
      pixelChunk (l.flatMap f) i = f (l.get ⟨i, h⟩)
  | a :: l, 0, _ => by
    rw [List.flatMap_cons, pixelChunk]
    simp only [Nat.mul_zero, List.drop_zero]
    exact List.take_left' (hf a)
  | a :: l, i + 1, h => by
    rw [List.flatMap_cons, pixelChunk]
    have h4 : 4 * (i + 1) = 4 + 4 * i := by ring
    rw [h4, ← List.drop_drop, List.drop_left' (hf a)]
    exact pixelChunk_flatMap f hf l i (Nat.lt_of_succ_lt_succ h)

theorem pixelChunk_fillBuffer (size : Nat) (surface : Nat → Nat → Option PremulColor)
    (i : Nat) (h : i < size * size) :
    pixelChunk (fillBuffer size surface) i =
      ((surface (i % size) (i / size)).getD PremulColor.transparent).toBytes := by
  rw [fillBuffer]
  have hlen : i < (List.range (size * size)).length := by simpa using h
  rw [pixelChunk_flatMap
      (fun j => ((surface (j % size) (j / size)).getD PremulColor.transparent).toBytes)
      (fun _ => rfl) (List.range (size * size)) i hlen,
    List.get_range]

/-- Modelled from the spec: un-premultiplying a premultiplied channel value
`c` under alpha `a` — recovering the straight-alpha value `round(c * 255 / a)`
(0 when `a = 0`).  The source (convert.rs, lines 165-168) does not perform
this step; this definition exists only to state what the specification
describes. -/
def specUnpremultiply (c a : Nat) : Nat :=
  if a = 0 then 0 else min 255 ((c * 255 + a / 2) / a)

/-- Modelled from the spec: the four channel bytes the specification expects
for an output pixel — the sampled color with its color channels
un-premultiplied by its alpha. -/
def PremulColor.specBytes (p : PremulColor) : List Nat :=
  [specUnpremultiply p.red p.alpha, specUnpremultiply p.green p.alpha,
   specUnpremultiply p.blue p.alpha, p.alpha]

/-- C6 counterexample: the claim that each output pixel is obtained by
un-premultiplying the sampled surface pixel is false.  For a surface whose
pixel is the premultiplied color (10, 0, 0, 128) the buffer holds the raw
premultiplied value 10, while un-premultiplication would give 20 — the code
copies the premultiplied channels directly. -/
theorem rasterize_does_not_unpremultiply :
    ¬ (∀ (size : Nat) (surface : Nat → Nat → Option PremulColor) (i : Nat),
        i < size * size →
        pixelChunk (fillBuffer size surface) i =
          ((surface (i % size) (i / size)).getD PremulColor.transparent).specBytes) := by
  intro h
  have hc := h 1 (fun _ _ => some ⟨10, 0, 0, 128⟩) 0 (by decide)
  exact absurd hc (by decide)

/-- C6 amended: for every requested canvas size N, the rasterizer's pixel
buffer has exactly N*N pixels (flat length N*N*4); the i-th pixel is the
surface sample at (i % N, i / N) with its premultiplied channel values copied
directly (no un-premultiplication), and any sample outside the rendered
pixmap yields a fully transparent pixel. -/
theorem rasterize_buffer_spec (size : Nat) (surface : Nat → Nat → Option PremulColor) :
    (fillBuffer size surface).length = size * size * 4 ∧
    (∀ i, i < size * size →
      pixelChunk (fillBuffer size surface) i =
        ((surface (i % size) (i / size)).getD PremulColor.transparent).toBytes) ∧
    (∀ i, i < size * size → surface (i % size) (i / size) = none →
      pixelChunk (fillBuffer size surface) i = [0, 0, 0, 0]) := by
  refine ⟨?_, fun i h => pixelChunk_fillBuffer size surface i h, ?_⟩
  · rw [fillBuffer, flatMap_length_const
        (fun j => ((surface (j % size) (j / size)).getD PremulColor.transparent).toBytes)
        (fun _ => rfl), List.length_range]
    ring
  · intro i h hnone
    rw [pixelChunk_fillBuffer size surface i h, hnone]
    rfl

/-- C6 amended witness: at canvas size 1 over an empty surface the buffer is
one fully transparent 4-byte pixel. -/
theorem rasterize_buffer_spec_witness :
    (fillBuffer 1 (fun _ _ => none)).length = 4 ∧
    pixelChunk (fillBuffer 1 (fun _ _ => none)) 0 = [0, 0, 0, 0] :=
  ⟨(rasterize_buffer_spec 1 (fun _ _ => none)).1,
   (rasterize_buffer_spec 1 (fun _ _ => none)).2.2 0 (by decide) rfl⟩

/-- usvg rendering options — the field set by `svg_to_other`. -/
structure UsvgOptions where
  resources_dir : Option FilePath
  deriving DecidableEq, Repr

/-- Translation of the options construction of `svg_to_other` (convert.rs,
lines 134-138): `resources_dir: Some(input_path.into())` — the source file
path itself. -/
def svgOptions (input_path : FilePath) : UsvgOptions :=
  { resources_dir := some input_path }

/-- The directory containing a file path: all components but the file name. -/
def parentDir (p : FilePath) : FilePath :=
  p.dropLast

/-- C8: the rasterizer binds the relative-resource base directory to the
source file path itself, not to the directory containing the source file:
for the source file a/b/logo.svg the bound `resources_dir` is a/b/logo.svg,
which differs from its containing directory a/b. -/
theorem svg_resources_dir_is_file_path :
    (svgOptions ["a", "b", "logo.svg"]).resources_dir = some ["a", "b", "logo.svg"] ∧
    parentDir ["a", "b", "logo.svg"] = ["a", "b"] ∧
    (svgOptions ["a", "b", "logo.svg"]).resources_dir ≠
      some (parentDir ["a", "b", "logo.svg"]) := by
  refine ⟨rfl, rfl, ?_⟩
  decide

end ImgZap
